import Mathlib

/-!
Shallow embedding of the EPUB/PDF ingestion pipeline (`reader4.py`) and proofs
of the specification claims.  Python strings are modelled as Lean `String`
(char lists); character classes (`isalpha`, `isdigit`, whitespace, regex word
characters) are modelled on their ASCII fragment.  Filesystem and library I/O
(BeautifulSoup parsing, pypdf page reading) is abstracted: items carry their
already-extracted data, and functions that raise are modelled with `Except`.
-/

/-! ## Data structures (the dataclasses of `reader4.py`) -/

/-- `ChapterContent` dataclass: a physical spine item. -/
structure ChapterContent where
  id : String
  href : String
  title : String
  content : String
  text : String
  order : Nat
deriving DecidableEq, Repr

/-- `TOCEntry` dataclass: a logical navigation entry. -/
structure TOCEntry where
  title : String
  href : String
  file_href : String
  anchor : String
  children : List TOCEntry
deriving Repr

/-- `BookMetadata` dataclass. -/
structure BookMetadata where
  title : String
  language : String
  authors : List String
  description : Option String
  publisher : Option String
  date : Option String
  identifiers : List String
  subjects : List String
deriving DecidableEq, Repr

/-! ## Python string primitives (ASCII fragment) -/

/-- ASCII whitespace recognized by Python `str.strip` and by regex `\s`. -/
def pyIsSpace (c : Char) : Bool :=
  c = ' ' || c = '\t' || c = '\n' || c = '\r' || c = '\x0b' || c = '\x0c'

/-- Python `str.strip()` on a char list: drop whitespace at both ends. -/
def pyStripL (l : List Char) : List Char :=
  ((l.dropWhile pyIsSpace).reverse.dropWhile pyIsSpace).reverse

/-- Python `str.strip()` on a `String`. -/
def pyStrip (s : String) : String :=
  String.mk (pyStripL s.data)

/-- Python `str.split(sep)` for a one-character separator (keeps empty parts,
always returns at least one part). -/
def pySplitCh (c : Char) : List Char → List (List Char)
  | [] => [[]]
  | x :: xs =>
    if x = c then [] :: pySplitCh c xs
    else
      match pySplitCh c xs with
      | [] => [[x]]
      | y :: ys => (x :: y) :: ys

/-- Line-break characters recognized by Python `str.splitlines`. -/
def pyIsLineBreak (c : Char) : Bool :=
  c = '\n' || c = '\r' || c = '\x0b' || c = '\x0c' ||
  c = '\x1c' || c = '\x1d' || c = '\x1e' || c = '\x85' ||
  c = '\u2028' || c = '\u2029'

/-- Worker for `pySplitlines`; `cur` holds the current line reversed. -/
def pySplitlinesAux (cur : List Char) : List Char → List (List Char)
  | [] => if cur = [] then [] else [cur.reverse]
  | '\r' :: '\n' :: rest => cur.reverse :: pySplitlinesAux [] rest
  | c :: rest =>
    if pyIsLineBreak c then cur.reverse :: pySplitlinesAux [] rest
    else pySplitlinesAux (c :: cur) rest

/-- Python `str.splitlines()`: no trailing empty line, `""` gives `[]`. -/
def pySplitlines (l : List Char) : List (List Char) :=
  pySplitlinesAux [] l

/-- Worker for Python no-argument `str.split()`: whitespace-run separated
words, empties dropped; `cur` holds the current word reversed. -/
def pyWordsAux (cur : List Char) : List Char → List String
  | [] => if cur = [] then [] else [String.mk cur.reverse]
  | c :: rest =>
    if pyIsSpace c then
      if cur = [] then pyWordsAux [] rest
      else String.mk cur.reverse :: pyWordsAux [] rest
    else pyWordsAux (c :: cur) rest

/-- `" ".join(s.split())`: the whitespace-collapsing idiom used for the
plain-text field of PDF chapters. -/
def pyJoinWords (s : String) : String :=
  String.intercalate " " (pyWordsAux [] s.data)

/-- Python `str.lower()` (ASCII). -/
def pyLower (s : String) : String :=
  String.mk (s.data.map Char.toLower)

/-- Index of the last occurrence of `c`, scanning from position `i`. -/
def pyLastIdxAux (c : Char) : List Char → Nat → Option Nat
  | [], _ => none
  | x :: xs, i =>
    match pyLastIdxAux c xs (i + 1) with
    | some j => some j
    | none => if x = c then some i else none

/-- Python `str.rfind(c)` as an `Option Nat`. -/
def pyLastIdxOf (c : Char) (l : List Char) : Option Nat :=
  pyLastIdxAux c l 0

/-- Python `os.path.basename` (POSIX): the part after the last slash. -/
def pyBasename (s : String) : String :=
  String.mk (s.data.reverse.takeWhile (fun c => c ≠ '/')).reverse

/-- Python `os.path.splitext` (POSIX): split off the extension at the last
dot, unless every character of the basename before that dot is itself a dot. -/
def pySplitext (s : String) : String × String :=
  match pyLastIdxOf '.' s.data with
  | none => (s, "")
  | some d =>
    let start := match pyLastIdxOf '/' s.data with
      | none => 0
      | some si => si + 1
    if start ≤ d ∧ ((s.data.drop start).take (d - start)).any (fun c => c ≠ '.') then
      (String.mk (s.data.take d), String.mk (s.data.drop d))
    else (s, "")

/-- `html.escape` on a single character (`quote=True` default). -/
def htmlEscapeChar (c : Char) : List Char :=
  if c = '&' then "&amp;".data
  else if c = '<' then "&lt;".data
  else if c = '>' then "&gt;".data
  else if c = '"' then "&quot;".data
  else if c = '\x27' then "&#x27;".data
  else [c]

/-- `html.escape` on a char list. -/
def htmlEscape (l : List Char) : List Char :=
  l.foldr (fun c acc => htmlEscapeChar c ++ acc) []

/-! ## `text_to_html` -/

/-- The stripped non-blank lines of `text_to_html`:
`[line.strip() for line in text.splitlines() if line.strip()]`. -/
def tthLines (t : String) : List (List Char) :=
  ((pySplitlines t.data).map pyStripL).filter (fun l => l ≠ [])

/-- `text_to_html`: one escaped `<p>` element per non-blank stripped line,
`"<p></p>"` when there is none. -/
def text_to_html (t : String) : String :=
  let lines := tthLines t
  if lines = [] then "<p></p>"
  else String.mk (lines.foldr (fun l acc => "<p>".data ++ htmlEscape l ++ "</p>".data ++ acc) [])

/-! ## `normalize_pdf_text` -/

/-- The hyphen-like characters of the dehyphenation regex
`[- \u2010 \u2011 \u00AD]`. -/
def isHyphenLike (c : Char) : Bool :=
  c = '-' || c = '\u2010' || c = '\u2011' || c = '\u00AD'

/-- Python `str.replace` for the two-character pattern `"\r\n" -> "\n"`
(left-to-right, non-overlapping). -/
def replaceCRLF : List Char → List Char
  | '\r' :: '\n' :: rest => '\n' :: replaceCRLF rest
  | c :: rest => c :: replaceCRLF rest
  | [] => []

/-- Python `str.replace` of `"\r"` by `"\n"`. -/
def replaceCR (l : List Char) : List Char :=
  l.map (fun c => if c = '\r' then '\n' else c)

/-- After a letter and a hyphen, the regex tail `\s*\n\s*([A-Za-z])` matches
exactly when the maximal whitespace run contains a newline and is followed by
a letter; returns that letter and the rest of the input. -/
def dehyphMatchTail (l : List Char) : Option (Char × List Char) :=
  match l.dropWhile pyIsSpace with
  | b :: t =>
    if '\n' ∈ l.takeWhile pyIsSpace ∧ b.isAlpha = true then some (b, t) else none
  | [] => none

/-- Fuel-indexed scanner for
`re.sub` of the hyphenation pattern (letter, hyphen-like, `\s*\n\s*`, letter):
left-to-right, non-overlapping, resuming after each replacement. -/
def dehyphAux : Nat → List Char → List Char
  | _, [] => []
  | _, [c] => [c]
  | 0, l => l
  | Nat.succ fuel, c :: d :: r =>
    if c.isAlpha && isHyphenLike d then
      match dehyphMatchTail r with
      | some (b, t) => c :: b :: dehyphAux fuel t
      | none => c :: dehyphAux fuel (d :: r)
    else c :: dehyphAux fuel (d :: r)

/-- The hyphenation-merge substitution of `normalize_pdf_text`. -/
def dehyph (l : List Char) : List Char :=
  dehyphAux l.length l

/-- Head-of-line whitespace test used by the list-like regex. -/
def headIsSpace : List Char → Bool
  | c :: _ => pyIsSpace c
  | [] => false

/-- Tail of the `\d+[.)]\s` branch: remaining digits, then `.` or `)`,
then whitespace. -/
def numListTail : List Char → Bool
  | [] => false
  | c :: rest =>
    if c.isDigit then numListTail rest
    else (c = '.' || c = ')') && headIsSpace rest

/-- `re.match(r"^([-*]|\d+[.)])\s", stripped)` as a Boolean. -/
def isListLike : List Char → Bool
  | [] => false
  | c :: rest =>
    if c = '-' || c = '*' then headIsSpace rest
    else if c.isDigit then numListTail rest
    else false

/-- `re.search(r"[.!?:;)]$", prev)` as a Boolean. -/
def endsTerminal (l : List Char) : Bool :=
  match l.getLast? with
  | some c => c = '.' || c = '!' || c = '?' || c = ':' || c = ';' || c = ')'
  | none => false

/-- The paragraph-rebuilding loop of `normalize_pdf_text`; `acc` is the
`rebuilt` list reversed so its head is `rebuilt[-1]`. -/
def rebuildAux (acc : List (List Char)) : List (List Char) → List (List Char)
  | [] => acc.reverse
  | line :: rest =>
    let stripped := pyStripL line
    if stripped = [] then rebuildAux ([] :: acc) rest
    else
      match acc with
      | [] => rebuildAux [stripped] rest
      | prev :: accT =>
        if prev = [] then rebuildAux (stripped :: prev :: accT) rest
        else if isListLike stripped then rebuildAux (stripped :: prev :: accT) rest
        else if !endsTerminal prev then rebuildAux ((prev ++ ' ' :: stripped) :: accT) rest
        else rebuildAux (stripped :: prev :: accT) rest

/-- The blank-line compression loop of `normalize_pdf_text`; `acc` is the
`compact` list reversed. -/
def compressBlanks (acc : List (List Char)) : List (List Char) → List (List Char)
  | [] => acc.reverse
  | l :: rest =>
    if l = [] && (match acc with | a :: _ => a = ([] : List Char) | [] => false : Bool) then
      compressBlanks acc rest
    else compressBlanks (l :: acc) rest

/-- `normalize_pdf_text`: newline canonicalization, hyphenation merge,
paragraph rebuilding, blank-line compression, final strip. -/
def normalize_pdf_text (s : String) : String :=
  if s.data = [] then ""
  else
    let n1 := replaceCR (replaceCRLF s.data)
    let n2 := dehyph n1
    let lines := pySplitCh '\n' n2
    let rebuilt := rebuildAux [] lines
    let compact := compressBlanks [] rebuilt
    String.mk (pyStripL (List.intercalate ['\n'] compact))

/-! ## TOC parsing (`parse_toc_recursive`) -/

/-- `href.split(char(35))[0]`: the part of an href before the first hash. -/
def toc_file_href (h : String) : String :=
  String.mk ((pySplitCh '#' h.data).headD [])

/-- `href.split(char(35))[1] if hash in href else ""`: the part of an href
between the first and second hash. -/
def toc_anchor (h : String) : String :=
  if h.data.contains '#' then String.mk ((pySplitCh '#' h.data).getD 1 [])
  else ""

/-- The heterogeneous `ebooklib` navigation nodes: `(Section, [children])`
tuples, `Link` objects, and bare `Section` objects. -/
inductive TocItem where
  | tuple (title href : String) (children : List TocItem)
  | link (title href : String)
  | sec (title href : String)

/-- `parse_toc_recursive`: normalize every node kind into a `TOCEntry`,
splitting its href at the first hash. -/
def parse_toc_recursive : List TocItem → List TOCEntry
  | [] => []
  | TocItem.tuple t h ch :: rest =>
    TOCEntry.mk t h (toc_file_href h) (toc_anchor h) (parse_toc_recursive ch)
      :: parse_toc_recursive rest
  | TocItem.link t h :: rest =>
    TOCEntry.mk t h (toc_file_href h) (toc_anchor h) [] :: parse_toc_recursive rest
  | TocItem.sec t h :: rest =>
    TOCEntry.mk t h (toc_file_href h) (toc_anchor h) [] :: parse_toc_recursive rest

/-! ## Metadata extraction -/

/-- Python `x or default` on an optional string: `None` and `""` are falsy. -/
def pyOrStr : Option String → String → String
  | some s, d => if s = "" then d else s
  | none, d => d

/-- Python truthiness filter on an optional string (`x if x else None`). -/
def optTruthy : Option String → Option String
  | some s => if s = "" then none else some s
  | none => none

/-- `get_one` of `extract_metadata_robust`: first value of a Dublin Core key,
over an abstract metadata table mapping each key to its ordered value list. -/
def dcGetOne (md : String → List String) (key : String) : Option String :=
  (md key).head?

/-- `extract_metadata_robust`: single-valued fields take the first value or a
default, multi-valued fields keep the whole list. -/
def extract_metadata_robust (md : String → List String) : BookMetadata :=
  BookMetadata.mk
    (pyOrStr (dcGetOne md "title") "Untitled")
    (pyOrStr (dcGetOne md "language") "en")
    (md "creator")
    (dcGetOne md "description")
    (dcGetOne md "publisher")
    (dcGetOne md "date")
    (md "identifier")
    (md "subject")

/-- The PDF document-information dictionary fields read by `process_pdf`. -/
structure PdfDocMeta where
  title : Option String
  author : Option String
  subject : Option String
  producer : Option String
  creationDate : Option String

/-- The `BookMetadata` built by `process_pdf`: title falls back to the file
stem, authors/description/publisher/date keep truthy values only. -/
def pdf_metadata (pdfPath : String) (m : PdfDocMeta) : BookMetadata :=
  BookMetadata.mk
    (pyOrStr m.title (pySplitext (pyBasename pdfPath)).1)
    "en"
    (match optTruthy m.author with
     | some a => [a]
     | none => [])
    (optTruthy m.subject)
    (optTruthy m.producer)
    (optTruthy m.creationDate)
    []
    []

/-! ## `process_book` dispatch -/

/-- The two processing branches of `process_book`. -/
inductive BookFormat where
  | epubFile
  | pdfFile
deriving DecidableEq

/-- The extension dispatch at the top of `process_book`: any extension other
than `.epub` / `.pdf` (case-insensitive) raises `ValueError` before any file
or directory is touched; raising is modelled as `Except.error`. -/
def process_book_dispatch (p : String) : Except String BookFormat :=
  let ext := pyLower (pySplitext p).2
  if ext = ".epub" then Except.ok BookFormat.epubFile
  else if ext = ".pdf" then Except.ok BookFormat.pdfFile
  else Except.error ("Unsupported file type: " ++ p ++ ". Supported extensions: .epub, .pdf.")

/-! ## Asset filename sanitization (`process_epub`, image loop) -/

/-- The sanitization filter of the asset extractor: keep only alphanumeric
characters and dot, underscore, dash, then `strip()`. -/
def sanitize_fname (s : String) : String :=
  pyStrip (String.mk (s.data.filter
    (fun c => c.isAlpha || c.isDigit || c = '.' || c = '_' || c = '-')))

/-- The output-relative path stored (twice) in the asset map for an image
resource whose internal path is `name`. -/
def asset_rel_path (name : String) : String :=
  "images/" ++ sanitize_fname (pyBasename name)

/-! ## EPUB spine processing (`process_epub`, chapter loop) -/

/-- Item kinds distinguished by `item.get_type()`. -/
inductive EpubItemKind where
  | document
  | image
  | other
deriving DecidableEq

/-- An EPUB manifest item.  The BeautifulSoup pipeline (image rewriting,
tag cleaning, body extraction, plain-text extraction) is abstracted: the item
carries its already-processed `contentHtml` and `plainText`. -/
structure EpubItem where
  id : String
  kind : EpubItemKind
  name : String
  contentHtml : String
  plainText : String

/-- An EPUB book as seen by the spine loop: the manifest items and the spine
list of `(idref, linear)` pairs. -/
structure EpubBook where
  items : List EpubItem
  spine : List (String × Bool)

/-- `book.get_item_with_id`. -/
def epubFindItem (bk : EpubBook) (itemId : String) : Option EpubItem :=
  bk.items.find? (fun it => it.id = itemId)

/-- The spine loop of `process_epub`: enumerate the spine, skip unresolvable
ids and non-document items, and emit a chapter with `order` equal to the
enumeration index. -/
def epub_spine_chapters (bk : EpubBook) : Nat → List (String × Bool) → List ChapterContent
  | _, [] => []
  | i, (itemId, _) :: rest =>
    match epubFindItem bk itemId with
    | none => epub_spine_chapters bk (i + 1) rest
    | some it =>
      if it.kind = EpubItemKind.document then
        ChapterContent.mk itemId it.name ("Section " ++ toString (i + 1))
            it.contentHtml it.plainText i
          :: epub_spine_chapters bk (i + 1) rest
      else epub_spine_chapters bk (i + 1) rest

/-- A spine entry is kept exactly when its id resolves to a document item. -/
def epubKept (bk : EpubBook) (p : String × Bool) : Bool :=
  match epubFindItem bk p.1 with
  | some it => it.kind = EpubItemKind.document
  | none => false

/-! ## PDF chapter building (`process_pdf`) -/

/-- An outline entry as returned by `get_pdf_outline_entries`:
a title and a zero-based start page. -/
structure PdfOutlineEntry where
  title : String
  page : Nat
deriving DecidableEq, Repr

/-- The outline branch of `process_pdf`: chapter `i` covers pages from its
entry's start page up to the next entry's start page (clamped to at least one
page and at most the page count); entries starting past the last page are
skipped.  Returns the spine and the flat TOC built in the same loop. -/
def pdf_outline_build (texts : List String) : Nat → List PdfOutlineEntry → List ChapterContent × List TOCEntry
  | _, [] => ([], [])
  | i, e :: rest =>
    let start := e.page
    let stop := match rest with
      | [] => texts.length
      | e2 :: _ => e2.page
    if texts.length ≤ start then pdf_outline_build texts (i + 1) rest
    else
      let stop2 := max (start + 1) (min stop texts.length)
      let seg := pyStrip (String.intercalate "\n\n" ((texts.drop start).take (stop2 - start)))
      let href := "chapter-" ++ toString (i + 1)
      let titl := if e.title = "" then "Chapter " ++ toString (i + 1) else e.title
      (ChapterContent.mk href href titl (text_to_html seg) (pyJoinWords seg) i
         :: (pdf_outline_build texts (i + 1) rest).1,
       TOCEntry.mk titl href href "" []
         :: (pdf_outline_build texts (i + 1) rest).2)

/-- The no-outline branch of `process_pdf`: one chapter per page. -/
def pdf_page_build : Nat → List String → List ChapterContent × List TOCEntry
  | _, [] => ([], [])
  | i, t :: rest =>
    let href := "page-" ++ toString (i + 1)
    let titl := "Page " ++ toString (i + 1)
    (ChapterContent.mk href href titl (text_to_html t) (pyJoinWords t) i
       :: (pdf_page_build (i + 1) rest).1,
     TOCEntry.mk titl href href "" [] :: (pdf_page_build (i + 1) rest).2)

/-- The spine/TOC pair produced by `process_pdf` from the normalized page
texts and the selected outline entries: the outline branch when there are
outline entries, the page branch otherwise. -/
def process_pdf_chapters (texts : List String) (entries : List PdfOutlineEntry) :
    List ChapterContent × List TOCEntry :=
  if entries = [] then pdf_page_build 0 texts
  else pdf_outline_build texts 0 entries

/-! ## PDF outline level selection (`get_pdf_outline_entries`) -/

/-- Regex word character (`\w`, ASCII fragment). -/
def isWordChar (c : Char) : Bool :=
  c.isAlpha || c.isDigit || c = '_'

/-- Case-insensitive literal match of `w` at the head of the input; returns
the remainder on success. -/
def matchCI : List Char → List Char → Option (List Char)
  | [], rest => some rest
  | _ :: _, [] => none
  | w :: ws, c :: cs => if c.toLower = w then matchCI ws cs else none

/-- Word-character status of the first character of the remainder (end of
string counts as a non-word position). -/
def headIsWord : List Char → Bool
  | [] => false
  | c :: _ => isWordChar c

/-- Scanner for `re.search` of a case-insensitively matched literal pattern
wrapped in word boundaries; `prevW` is the word-character status of the
character before the current position. -/
def searchWordAux (w : List Char) (wFirst wLast : Bool) : Bool → List Char → Bool
  | _, [] => false
  | prevW, c :: cs =>
    ((prevW != wFirst) &&
      (match matchCI w (c :: cs) with
       | some rest => wLast != headIsWord rest
       | none => false))
    || searchWordAux w wFirst wLast (isWordChar c) cs

/-- `re.search` of a boundary-wrapped case-insensitive literal word `w`
(given in lowercase) inside `s`. -/
def searchWordCI (w s : String) : Bool :=
  match w.data with
  | [] => false
  | c :: cs =>
    searchWordAux (c :: cs) (isWordChar c)
      (isWordChar ((c :: cs).getLast (by simp))) false s.data

/-- The part-like title test of the selector (`part|book|section` with word
boundaries, case-insensitive). -/
def partLikeTitle (s : String) : Bool :=
  searchWordCI "part" s || searchWordCI "book" s || searchWordCI "section" s

/-- The chapter-like title test of the selector
(`chapter|chap.|prologue|epilogue|appendix`, case-insensitive). -/
def chapterLikeTitle (s : String) : Bool :=
  searchWordCI "chapter" s || searchWordCI "chap." s || searchWordCI "prologue" s ||
  searchWordCI "epilogue" s || searchWordCI "appendix" s

/-- An outline entry as accumulated by `walk` (title already stripped,
page already validated non-negative). -/
structure OutEntry where
  title : String
  page : Nat
  level : Nat
deriving DecidableEq, Repr

/-- Insert into the `(title, page)`-keyed dict of `dedupe_by_page`: a repeated
key replaces the stored entry in place, a new key appends. -/
def dedupInsert : List OutEntry → OutEntry → List OutEntry
  | [], e => [e]
  | x :: xs, e =>
    if x.title = e.title ∧ x.page = e.page then e :: xs
    else x :: dedupInsert xs e

/-- Stable insertion of an entry after all entries with a smaller-or-equal
page (Python `sorted` is stable). -/
def insertByPage (e : OutEntry) : List OutEntry → List OutEntry
  | [] => [e]
  | x :: xs => if x.page ≤ e.page then x :: insertByPage e xs else e :: x :: xs

/-- Stable sort by page. -/
def sortByPage (l : List OutEntry) : List OutEntry :=
  l.foldl (fun acc e => insertByPage e acc) []

/-- Keep only the first entry for each page. -/
def uniqueByPage : List OutEntry → List Nat → List OutEntry
  | [], _ => []
  | e :: rest, seen =>
    if e.page ∈ seen then uniqueByPage rest seen
    else e :: uniqueByPage rest (e.page :: seen)

/-- `dedupe_by_page`: dict-dedupe on `(title, page)`, stable sort by page,
then one entry per page. -/
def dedupe_by_page (entries : List OutEntry) : List OutEntry :=
  uniqueByPage (sortByPage (entries.foldl dedupInsert [])) []

/-- Number of part-like titles in a deduplicated level. -/
def partLikeCount (entries : List OutEntry) : Nat :=
  entries.countP (fun e => partLikeTitle e.title)

/-- Number of chapter-like titles in a deduplicated level. -/
def chapterLikeCount (entries : List OutEntry) : Nat :=
  entries.countP (fun e => chapterLikeTitle e.title)

/-- Lookup of a level in the insertion-ordered level dict. -/
def lookupLevel (m : List (Nat × List OutEntry)) (k : Nat) : Option (List OutEntry) :=
  (m.find? (fun p => p.1 = k)).map (fun p => p.2)

/-- `normalized_by_level`: dedupe every level. -/
def normalizedOf (byLevel : List (Nat × List OutEntry)) : List (Nat × List OutEntry) :=
  byLevel.map (fun p => (p.1, dedupe_by_page p.2))

/-- The deduplicated top level. -/
def topLevelOf (byLevel : List (Nat × List OutEntry)) : List OutEntry :=
  (lookupLevel (normalizedOf byLevel) 0).getD []

/-- The deduplicated level 1. -/
def levelOneOf (byLevel : List (Nat × List OutEntry)) : List OutEntry :=
  (lookupLevel (normalizedOf byLevel) 1).getD []

/-- Comparison of the Python score tuples
`(chapter_like_count, chapter_like_count / len, len)` (lexicographic; the
float ratio is modelled as an exact fraction compared by cross-multiplication). -/
def scoreGt (c1 l1 c2 l2 : Nat) : Bool :=
  if c1 ≠ c2 then decide (c1 > c2)
  else if c1 * l2 ≠ c2 * l1 then decide (c1 * l2 > c2 * l1)
  else decide (l1 > l2)

/-- The best-scoring level loop of the selector: levels with fewer than three
deduplicated entries are ignored; ties keep the earlier level. -/
def bestChapterLevel (normalized : List (Nat × List OutEntry)) :
    Option (Nat × Nat × Nat) :=
  normalized.foldl
    (fun best p =>
      if p.2.length < 3 then best
      else
        let c := chapterLikeCount p.2
        match best with
        | none => some (p.1, c, p.2.length)
        | some (bl, bc, bn) =>
          if scoreGt c p.2.length bc bn then some (p.1, c, p.2.length)
          else some (bl, bc, bn))
    none

/-- The fallback level: level 0 when present, else the shallowest level. -/
def fallbackLevel (normalized : List (Nat × List OutEntry)) : Nat :=
  match lookupLevel normalized 0 with
  | some _ => 0
  | none =>
    match normalized.map (fun p => p.1) with
    | [] => 0
    | k :: ks => ks.foldl min k

/-- Chapter-like scoring and fallback: everything of the selector after the
part-dominance rule. -/
def selectAfterPart (normalized : List (Nat × List OutEntry)) : List PdfOutlineEntry :=
  match bestChapterLevel normalized with
  | some (bl, bc, _) =>
    if 3 ≤ bc then
      ((lookupLevel normalized bl).getD []).map (fun e => PdfOutlineEntry.mk e.title e.page)
    else
      ((lookupLevel normalized (fallbackLevel normalized)).getD []).map
        (fun e => PdfOutlineEntry.mk e.title e.page)
  | none =>
    ((lookupLevel normalized (fallbackLevel normalized)).getD []).map
      (fun e => PdfOutlineEntry.mk e.title e.page)

/-- `get_pdf_outline_entries` from the per-level entry dict accumulated by
`walk` (the pypdf traversal itself is abstracted): empty outline gives no
entries; a part-dominated top level with a non-empty level 1 gives level 1;
otherwise the chapter-like scoring and fallbacks decide. -/
def get_pdf_outline_entries (byLevel : List (Nat × List OutEntry)) : List PdfOutlineEntry :=
  if byLevel = [] then []
  else
    if topLevelOf byLevel ≠ [] ∧
        max 2 ((topLevelOf byLevel).length / 2) ≤ partLikeCount (topLevelOf byLevel) then
      match lookupLevel (normalizedOf byLevel) 1 with
      | some l1 =>
        if l1 ≠ [] then l1.map (fun e => PdfOutlineEntry.mk e.title e.page)
        else selectAfterPart (normalizedOf byLevel)
      | none => selectAfterPart (normalizedOf byLevel)
    else selectAfterPart (normalizedOf byLevel)

/-! ## Helper lemmas -/

/-- Stripping only removes characters. -/
theorem mem_of_mem_pyStripL {c : Char} {l : List Char} (h : c ∈ pyStripL l) : c ∈ l := by
  unfold pyStripL at h
  rw [List.mem_reverse] at h
  have h2 := (List.dropWhile_sublist pyIsSpace).subset h
  rw [List.mem_reverse] at h2
  exact (List.dropWhile_sublist pyIsSpace).subset h2

/-- Concatenation of `String.mk` values. -/
theorem string_mk_append (a b : List Char) :
    String.mk a ++ String.mk b = String.mk (a ++ b) := rfl

/-- Splitting a list that does not contain the separator. -/
theorem pySplitCh_no_sep {c : Char} : ∀ {l : List Char}, c ∉ l → pySplitCh c l = [l] := by
  intro l
  induction l with
  | nil => intro _; rfl
  | cons x xs ih =>
    intro h
    rw [List.mem_cons, not_or] at h
    simp only [pySplitCh]
    rw [if_neg (fun hxc => h.1 hxc.symm), ih h.2]

/-- Splitting at the first separator occurrence. -/
theorem pySplitCh_sep {c : Char} : ∀ {a : List Char}, c ∉ a →
    ∀ b, pySplitCh c (a ++ c :: b) = a :: pySplitCh c b := by
  intro a
  induction a with
  | nil => intro _ b; simp [pySplitCh]
  | cons x xs ih =>
    intro h b
    rw [List.mem_cons, not_or] at h
    rw [List.cons_append]
    simp only [pySplitCh]
    rw [if_neg (fun hxc => h.1 hxc.symm), ih h.2 b]

/-- `pySplitCh` never returns the empty list. -/
theorem pySplitCh_ne_nil (c : Char) : ∀ (l : List Char), pySplitCh c l ≠ [] := by
  intro l
  cases l with
  | nil => simp [pySplitCh]
  | cons x xs =>
    simp only [pySplitCh]
    split
    · simp
    · cases hsp : pySplitCh c xs <;> simp

/-- A list containing `c` in its middle reports `contains c`. -/
theorem contains_mid (a : List Char) (c : Char) (b : List Char) :
    (a ++ c :: b).contains c = true := by
  simp [List.contains, List.elem_eq_mem]

/-! ## Claim theorems -/

/-- C7: every character of a sanitized asset filename (hence of the filename
component of every asset-map value, which is `asset_rel_path`) is alphanumeric
or one of dot, underscore, dash. -/
theorem C7_sanitized_filename (s : String) (c : Char)
    (h : c ∈ (sanitize_fname s).data) :
    (c.isAlpha || c.isDigit || c = '.' || c = '_' || c = '-') = true := by
  unfold sanitize_fname pyStrip at h
  have h2 : c ∈ s.data.filter
      (fun c => c.isAlpha || c.isDigit || c = '.' || c = '_' || c = '-') :=
    mem_of_mem_pyStripL h
  exact (List.mem_filter.mp h2).2

/-- Witness for C7 at a concrete filename. -/
theorem C7_sanitized_filename_witness :
    ('g'.isAlpha || 'g'.isDigit || 'g' = '.' || 'g' = '_' || 'g' = '-') = true :=
  C7_sanitized_filename "my img?.png" 'g' (by decide)

/-- C8: a path whose lower-cased extension is neither `.epub` nor `.pdf` makes
`process_book` raise the unsupported-format error at dispatch, before any
processing. -/
theorem C8_unsupported_extension (p : String)
    (h1 : pyLower (pySplitext p).2 ≠ ".epub")
    (h2 : pyLower (pySplitext p).2 ≠ ".pdf") :
    process_book_dispatch p =
      Except.error ("Unsupported file type: " ++ p ++ ". Supported extensions: .epub, .pdf.") := by
  unfold process_book_dispatch
  rw [if_neg h1, if_neg h2]

/-- Witness for C8 at a concrete path. -/
theorem C8_unsupported_extension_witness :
    process_book_dispatch "notes.txt" =
      Except.error ("Unsupported file type: " ++ "notes.txt" ++ ". Supported extensions: .epub, .pdf.") :=
  C8_unsupported_extension "notes.txt" (by decide) (by decide)

/-- C2 (amended): an EPUB whose metadata has no title value gets the default
title Untitled; a PDF whose document information has no Title gets the source
file name without its extension, not Untitled. -/
theorem C2_title_defaults :
    (∀ md : String → List String, md "title" = [] →
      (extract_metadata_robust md).title = "Untitled") ∧
    (∀ (p : String) (m : PdfDocMeta), m.title = none →
      (pdf_metadata p m).title = (pySplitext (pyBasename p)).1) := by
  constructor
  · intro md h
    unfold extract_metadata_robust dcGetOne
    simp [h, pyOrStr]
  · intro p m h
    unfold pdf_metadata
    simp [h, pyOrStr]

/-- Witness for C2 at concrete inputs. -/
theorem C2_title_defaults_witness :
    (extract_metadata_robust (fun _ => [])).title = "Untitled" ∧
    (pdf_metadata "a.pdf" (PdfDocMeta.mk none none none none none)).title =
      (pySplitext (pyBasename "a.pdf")).1 :=
  ⟨C2_title_defaults.1 (fun _ => []) rfl,
   C2_title_defaults.2 "a.pdf" (PdfDocMeta.mk none none none none none) rfl⟩

/-- C2 counterexample: a PDF named `book.pdf` with no native title gets the
title `book`, not `Untitled` as the claim states for the PDF path. -/
theorem C2_title_counterexample :
    (pdf_metadata "book.pdf" (PdfDocMeta.mk none none none none none)).title = "book" ∧
    (pdf_metadata "book.pdf" (PdfDocMeta.mk none none none none none)).title ≠ "Untitled" := by
  constructor
  · rfl
  · decide

/-- Unfolding the character list of a literal `String.mk`. -/
theorem data_mk (l : List Char) : (String.mk l).data = l := rfl

/-- C3 (amended): `file_href` is the prefix of the href before the first
hash; `anchor` is the segment strictly between the first and the second hash
(the whole remainder when there is exactly one hash, empty when there is
none); the reconstruction `h = file_href ++ hash ++ anchor` therefore holds
for hrefs with exactly one hash but not in general. -/
theorem C3_href_split (a b r : List Char) (ha : '#' ∉ a) (hb : '#' ∉ b) :
    (toc_file_href (String.mk a) = String.mk a ∧ toc_anchor (String.mk a) = "") ∧
    (toc_file_href (String.mk (a ++ '#' :: b)) = String.mk a ∧
     toc_anchor (String.mk (a ++ '#' :: b)) = String.mk b ∧
     String.mk (a ++ '#' :: b) =
       toc_file_href (String.mk (a ++ '#' :: b)) ++ "#" ++
         toc_anchor (String.mk (a ++ '#' :: b))) ∧
    toc_anchor (String.mk (a ++ '#' :: (b ++ '#' :: r))) = String.mk b := by
  have hfile : toc_file_href (String.mk (a ++ '#' :: b)) = String.mk a := by
    unfold toc_file_href
    rw [data_mk, pySplitCh_sep ha b]
    rfl
  have hanch : toc_anchor (String.mk (a ++ '#' :: b)) = String.mk b := by
    unfold toc_anchor
    rw [data_mk, if_pos (contains_mid a '#' b), pySplitCh_sep ha b,
      pySplitCh_no_sep hb]
    rfl
  refine ⟨⟨?_, ?_⟩, ⟨hfile, hanch, ?_⟩, ?_⟩
  · unfold toc_file_href
    rw [data_mk, pySplitCh_no_sep ha]
    rfl
  · unfold toc_anchor
    rw [data_mk]
    simp [List.contains, List.elem_eq_mem, ha]
  · rw [hfile, hanch, string_mk_append, string_mk_append]
    simp
  · unfold toc_anchor
    rw [data_mk, if_pos, pySplitCh_sep ha (b ++ '#' :: r), pySplitCh_sep hb r]
    · rfl
    · exact contains_mid a '#' (b ++ '#' :: r)

/-- Witness for C3 at a concrete href with one hash. -/
theorem C3_href_split_witness :
    toc_anchor (String.mk ("part01.html".data ++ '#' :: "ch1".data)) =
      String.mk "ch1".data :=
  (C3_href_split "part01.html".data "ch1".data [] (by decide) (by decide)).2.1.2.1

/-- C3 counterexample: for an href with two hashes the anchor is only the
middle segment, so the claimed reconstruction fails. -/
theorem C3_href_split_counterexample :
    toc_anchor "a#b#c" = "b" ∧
    ¬ ("a#b#c" = toc_file_href "a#b#c" ++ "#" ++ toc_anchor "a#b#c") := by
  constructor
  · decide
  · decide

/-- `text_to_html` never returns the empty string. -/
theorem text_to_html_ne_empty (t : String) : text_to_html t ≠ "" := by
  unfold text_to_html
  cases hl : tthLines t with
  | nil => simp
  | cons l ls =>
    simp only [if_neg (by simp : ¬ (l :: ls : List (List Char)) = [])]
    intro hEq
    have : ("<p>".data ++ (htmlEscape l ++ ("</p>".data ++
        (ls.foldr (fun l acc => "<p>".data ++ htmlEscape l ++ "</p>".data ++ acc) [])))) =
        ([] : List Char) := by
      have h2 := congrArg String.data hEq
      simp at h2
    simp at this

/-- The paragraph foldr of `text_to_html` as a `String.join`. -/
theorem tth_foldr_eq_join (ls : List (List Char)) :
    String.mk (ls.foldr (fun l acc => "<p>".data ++ htmlEscape l ++ "</p>".data ++ acc) []) =
    String.join (ls.map (fun l => "<p>" ++ String.mk (htmlEscape l) ++ "</p>")) := by
  rw [String.join_eq]
  congr 1
  induction ls with
  | nil => rfl
  | cons l ls ih =>
    simp only [List.foldr_cons, List.map_cons, List.flatten_cons, ih]
    rfl

/-- Every chapter of the page branch carries `text_to_html` output. -/
theorem pdf_page_content_tth : ∀ (i : Nat) (texts : List String) (ch : ChapterContent),
    ch ∈ (pdf_page_build i texts).1 → ∃ s, ch.content = text_to_html s := by
  intro i texts
  induction texts generalizing i with
  | nil => intro ch h; simp [pdf_page_build] at h
  | cons t rest ih =>
    intro ch h
    simp only [pdf_page_build, List.mem_cons] at h
    rcases h with h | h
    · exact ⟨t, by rw [h]⟩
    · exact ih (i + 1) ch h

/-- Every chapter of the outline branch carries `text_to_html` output. -/
theorem pdf_outline_content_tth (texts : List String) :
    ∀ (i : Nat) (entries : List PdfOutlineEntry) (ch : ChapterContent),
    ch ∈ (pdf_outline_build texts i entries).1 → ∃ s, ch.content = text_to_html s := by
  intro i entries
  induction entries generalizing i with
  | nil => intro ch h; simp [pdf_outline_build] at h
  | cons e rest ih =>
    intro ch h
    simp only [pdf_outline_build] at h
    by_cases hskip : texts.length ≤ e.page
    · rw [if_pos hskip] at h
      exact ih (i + 1) ch h
    · rw [if_neg hskip] at h
      simp only [List.mem_cons] at h
      rcases h with h | h
      · exact ⟨_, by rw [h]⟩
      · exact ih (i + 1) ch h

/-- C10: `text_to_html` is total and never empty: with no non-blank line it
is exactly one empty paragraph, otherwise the concatenation of one escaped
paragraph per stripped non-blank line, in order; hence every PDF-produced
chapter content is non-empty. -/
theorem C10_text_to_html_shape :
    (∀ t : String, text_to_html t ≠ "") ∧
    (∀ t : String, text_to_html t =
      if tthLines t = [] then "<p></p>"
      else String.join ((tthLines t).map (fun l => "<p>" ++ String.mk (htmlEscape l) ++ "</p>"))) ∧
    (∀ (texts : List String) (entries : List PdfOutlineEntry) (ch : ChapterContent),
      ch ∈ (process_pdf_chapters texts entries).1 → ch.content ≠ "") := by
  refine ⟨text_to_html_ne_empty, ?_, ?_⟩
  · intro t
    unfold text_to_html
    by_cases h : tthLines t = []
    · simp [h]
    · rw [if_neg h, if_neg h, tth_foldr_eq_join]
  · intro texts entries ch h
    unfold process_pdf_chapters at h
    by_cases he : entries = []
    · rw [if_pos he] at h
      obtain ⟨s, hs⟩ := pdf_page_content_tth 0 texts ch h
      rw [hs]; exact text_to_html_ne_empty s
    · rw [if_neg he] at h
      obtain ⟨s, hs⟩ := pdf_outline_content_tth texts 0 entries ch h
      rw [hs]; exact text_to_html_ne_empty s

/-- Witness for C10 at a concrete page chapter. -/
theorem C10_text_to_html_shape_witness :
    (ChapterContent.mk "page-1" "page-1" "Page 1" (text_to_html "hello")
      (pyJoinWords "hello") 0).content ≠ "" :=
  C10_text_to_html_shape.2.2 ["hello"] []
    (ChapterContent.mk "page-1" "page-1" "Page 1" (text_to_html "hello")
      (pyJoinWords "hello") 0) (by decide)

/-- Closed form of the page-branch spine. -/
theorem pdf_page_build_closed : ∀ (texts : List String) (i : Nat),
    (pdf_page_build i texts).1 =
      ((List.range' i texts.length).zip texts).map (fun p =>
        ChapterContent.mk ("page-" ++ toString (p.1 + 1)) ("page-" ++ toString (p.1 + 1))
          ("Page " ++ toString (p.1 + 1)) (text_to_html p.2) (pyJoinWords p.2) p.1) := by
  intro texts
  induction texts with
  | nil => intro i; simp [pdf_page_build]
  | cons t rest ih =>
    intro i
    simp only [pdf_page_build, List.length_cons, List.range'_succ, List.zip_cons_cons,
      List.map_cons]
    rw [ih (i + 1)]

/-- C5: a PDF with no outline yields exactly one chapter per page, with title
`Page i+1`, href `page-i+1`, content `text_to_html` of the page text, and
order equal to the page index. -/
theorem C5_page_fallback (texts : List String) :
    (process_pdf_chapters texts []).1.length = texts.length ∧
    (process_pdf_chapters texts []).1 =
      ((List.range texts.length).zip texts).map (fun p =>
        ChapterContent.mk ("page-" ++ toString (p.1 + 1)) ("page-" ++ toString (p.1 + 1))
          ("Page " ++ toString (p.1 + 1)) (text_to_html p.2) (pyJoinWords p.2) p.1) := by
  have h := pdf_page_build_closed texts 0
  have hmain : (process_pdf_chapters texts []).1 =
      ((List.range texts.length).zip texts).map (fun p =>
        ChapterContent.mk ("page-" ++ toString (p.1 + 1)) ("page-" ++ toString (p.1 + 1))
          ("Page " ++ toString (p.1 + 1)) (text_to_html p.2) (pyJoinWords p.2) p.1) := by
    rw [List.range_eq_range']
    simpa [process_pdf_chapters] using h
  refine ⟨?_, hmain⟩
  rw [hmain]
  simp

/-- The page branch builds its TOC as the field-projection of its spine. -/
theorem pdf_page_toc_map : ∀ (i : Nat) (texts : List String),
    (pdf_page_build i texts).2 =
      (pdf_page_build i texts).1.map (fun ch => TOCEntry.mk ch.title ch.href ch.href "" []) := by
  intro i texts
  induction texts generalizing i with
  | nil => simp [pdf_page_build]
  | cons t rest ih =>
    simp only [pdf_page_build, List.map_cons]
    rw [ih (i + 1)]

/-- The outline branch builds its TOC as the field-projection of its spine. -/
theorem pdf_outline_toc_map (texts : List String) :
    ∀ (i : Nat) (entries : List PdfOutlineEntry),
    (pdf_outline_build texts i entries).2 =
      (pdf_outline_build texts i entries).1.map
        (fun ch => TOCEntry.mk ch.title ch.href ch.href "" []) := by
  intro i entries
  induction entries generalizing i with
  | nil => simp [pdf_outline_build]
  | cons e rest ih =>
    by_cases hskip : texts.length ≤ e.page
    · simp only [pdf_outline_build, if_pos hskip]
      exact ih (i + 1)
    · simp only [pdf_outline_build, if_neg hskip, List.map_cons]
      rw [ih (i + 1)]

/-- C9: for every PDF book (outline or page branch) the TOC is flat, one
entry per spine chapter in order, with matching title, `href` and `file_href`
equal to the chapter href, empty anchor and no children. -/
theorem C9_pdf_toc_matches_spine (texts : List String) (entries : List PdfOutlineEntry) :
    (process_pdf_chapters texts entries).2 =
      (process_pdf_chapters texts entries).1.map
        (fun ch => TOCEntry.mk ch.title ch.href ch.href "" []) := by
  unfold process_pdf_chapters
  by_cases he : entries = []
  · rw [if_pos he]
    exact pdf_page_toc_map 0 texts
  · rw [if_neg he]
    exact pdf_outline_toc_map texts 0 entries

/-- Every order produced by the EPUB spine loop is at least the starting
enumeration index. -/
theorem epub_order_lb (bk : EpubBook) : ∀ (sp : List (String × Bool)) (i o : Nat),
    o ∈ (epub_spine_chapters bk i sp).map (fun c => c.order) → i ≤ o := by
  intro sp
  induction sp with
  | nil => intro i o h; simp [epub_spine_chapters] at h
  | cons p rest ih =>
    intro i o h
    cases p with
    | mk pid plin =>
      simp only [epub_spine_chapters] at h
      split at h
      · exact Nat.le_of_succ_le (ih (i + 1) o h)
      · split at h
        · simp only [List.map_cons, List.mem_cons] at h
          rcases h with h | h
          · omega
          · exact Nat.le_of_succ_le (ih (i + 1) o h)
        · exact Nat.le_of_succ_le (ih (i + 1) o h)

/-- The orders produced by the EPUB spine loop are strictly increasing. -/
theorem epub_order_pairwise (bk : EpubBook) : ∀ (sp : List (String × Bool)) (i : Nat),
    ((epub_spine_chapters bk i sp).map (fun c => c.order)).Pairwise (· < ·) := by
  intro sp
  induction sp with
  | nil => intro i; simp [epub_spine_chapters]
  | cons p rest ih =>
    intro i
    cases p with
    | mk pid plin =>
      simp only [epub_spine_chapters]
      split
      · exact ih (i + 1)
      · split
        · simp only [List.map_cons, List.pairwise_cons]
          refine ⟨?_, ih (i + 1)⟩
          intro o ho
          have := epub_order_lb bk rest (i + 1) o ho
          omega
        · exact ih (i + 1)

/-- When every spine entry resolves to a document, the EPUB orders are the
full index range. -/
theorem epub_order_all_kept (bk : EpubBook) : ∀ (sp : List (String × Bool)) (i : Nat),
    (∀ p ∈ sp, epubKept bk p = true) →
    (epub_spine_chapters bk i sp).map (fun c => c.order) = List.range' i sp.length := by
  intro sp
  induction sp with
  | nil => intro i _; simp [epub_spine_chapters]
  | cons p rest ih =>
    intro i h
    cases p with
    | mk pid plin =>
      have hkept := h (pid, plin) (List.mem_cons_self _ _)
      unfold epubKept at hkept
      simp only [epub_spine_chapters]
      split
      · rename_i hfind
        rw [hfind] at hkept
        simp at hkept
      · rename_i it hfind
        rw [hfind] at hkept
        have hkind : it.kind = EpubItemKind.document := by
          simpa using hkept
        rw [if_pos hkind]
        simp only [List.map_cons, List.length_cons, List.range'_succ]
        rw [ih (i + 1) (fun q hq => h q (List.mem_cons_of_mem _ hq))]

/-- An outline whose entries all start past the last page builds nothing. -/
theorem pdf_outline_skip_all (texts : List String) :
    ∀ (entries : List PdfOutlineEntry) (i : Nat),
    (∀ e ∈ entries, texts.length ≤ e.page) →
    pdf_outline_build texts i entries = ([], []) := by
  intro entries
  induction entries with
  | nil => intro i _; rfl
  | cons e rest ih =>
    intro i h
    simp only [pdf_outline_build, if_pos (h e (List.mem_cons_self _ _))]
    exact ih (i + 1) (fun q hq => h q (List.mem_cons_of_mem _ hq))

/-- With page-sorted outline entries (as `get_pdf_outline_entries` produces),
the outline-branch orders are a contiguous range from the start index. -/
theorem pdf_outline_orders_sorted (texts : List String) :
    ∀ (entries : List PdfOutlineEntry) (i : Nat),
    entries.Pairwise (fun a b => a.page ≤ b.page) →
    (pdf_outline_build texts i entries).1.map (fun c => c.order) =
      List.range' i (pdf_outline_build texts i entries).1.length := by
  intro entries
  induction entries with
  | nil => intro i _; simp [pdf_outline_build]
  | cons e rest ih =>
    intro i h
    rw [List.pairwise_cons] at h
    by_cases hskip : texts.length ≤ e.page
    · have hall : ∀ q ∈ rest, texts.length ≤ q.page :=
        fun q hq => le_trans hskip (h.1 q hq)
      simp only [pdf_outline_build, if_pos hskip, pdf_outline_skip_all texts rest (i + 1) hall]
      simp
    · simp only [pdf_outline_build, if_neg hskip, List.map_cons, List.length_cons,
        List.range'_succ]
      rw [ih (i + 1) h.2]

/-- Length of the page-branch spine. -/
theorem pdf_page_build_length : ∀ (texts : List String) (i : Nat),
    (pdf_page_build i texts).1.length = texts.length := by
  intro texts
  induction texts with
  | nil => intro i; rfl
  | cons t rest ih =>
    intro i
    simp only [pdf_page_build, List.length_cons]
    rw [ih (i + 1)]

/-- Orders of the page-branch spine. -/
theorem pdf_page_orders : ∀ (texts : List String) (i : Nat),
    (pdf_page_build i texts).1.map (fun c => c.order) = List.range' i texts.length := by
  intro texts
  induction texts with
  | nil => intro i; rfl
  | cons t rest ih =>
    intro i
    simp only [pdf_page_build, List.map_cons, List.length_cons, List.range'_succ]
    rw [ih (i + 1)]

/-- C1 (amended): chapter orders equal the enumeration index of the
originating spine/outline entry, so they are strictly increasing but may skip
values when EPUB spine entries are skipped; they equal `0,...,n-1` when every
EPUB spine entry is kept, and always in the PDF branches (whose outline
entries arrive sorted by page). -/
theorem C1_order_indexing :
    (∀ (bk : EpubBook) (i : Nat) (sp : List (String × Bool)),
      ((epub_spine_chapters bk i sp).map (fun c => c.order)).Pairwise (· < ·)) ∧
    (∀ (bk : EpubBook) (sp : List (String × Bool)),
      (∀ p ∈ sp, epubKept bk p = true) →
      (epub_spine_chapters bk 0 sp).map (fun c => c.order) = List.range sp.length) ∧
    (∀ (texts : List String) (entries : List PdfOutlineEntry),
      entries.Pairwise (fun a b => a.page ≤ b.page) →
      (process_pdf_chapters texts entries).1.map (fun c => c.order) =
        List.range (process_pdf_chapters texts entries).1.length) := by
  refine ⟨fun bk i sp => epub_order_pairwise bk sp i, ?_, ?_⟩
  · intro bk sp h
    rw [List.range_eq_range']
    exact epub_order_all_kept bk sp 0 h
  · intro texts entries h
    unfold process_pdf_chapters
    by_cases he : entries = []
    · rw [if_pos he, List.range_eq_range', pdf_page_build_length texts 0]
      exact pdf_page_orders texts 0
    · rw [if_neg he, List.range_eq_range']
      exact pdf_outline_orders_sorted texts entries 0 h

/-- An EPUB whose first spine id does not resolve, for the C1 counterexample. -/
def epubDemoBook : EpubBook :=
  EpubBook.mk [EpubItem.mk "b" EpubItemKind.document "b.html" "x" "x"]
    [("a", true), ("b", true)]

/-- C1 counterexample: when the first spine entry is skipped, the first
produced chapter has order 1, not its spine-sequence index 0. -/
theorem C1_order_indexing_counterexample :
    (epub_spine_chapters epubDemoBook 0 epubDemoBook.spine).map (fun c => c.order) = [1] ∧
    (1 : Nat) ≠ 0 := by
  constructor
  · rfl
  · decide

/-- Witness for C1 at concrete books. -/
theorem C1_order_indexing_witness :
    ((epub_spine_chapters (EpubBook.mk [] [("a", true)]) 0 [("a", true)]).map
      (fun c => c.order)).Pairwise (· < ·) ∧
    (epub_spine_chapters (EpubBook.mk [EpubItem.mk "b" EpubItemKind.document "b.html" "x" "x"]
        [("b", true)]) 0 [("b", true)]).map (fun c => c.order) = List.range 1 ∧
    (process_pdf_chapters ["t1", "t2"]
        [PdfOutlineEntry.mk "A" 0, PdfOutlineEntry.mk "B" 1]).1.map (fun c => c.order) =
      List.range (process_pdf_chapters ["t1", "t2"]
        [PdfOutlineEntry.mk "A" 0, PdfOutlineEntry.mk "B" 1]).1.length :=
  ⟨C1_order_indexing.1 (EpubBook.mk [] [("a", true)]) 0 [("a", true)],
   C1_order_indexing.2.1 (EpubBook.mk [EpubItem.mk "b" EpubItemKind.document "b.html" "x" "x"]
      [("b", true)]) [("b", true)] (by decide),
   C1_order_indexing.2.2 ["t1", "t2"] [PdfOutlineEntry.mk "A" 0, PdfOutlineEntry.mk "B" 1]
      (by decide)⟩

/-- C4: when at least `max(2, n/2)` of the `n` deduplicated top-level outline
entries have part-like titles and deduplicated level 1 is non-empty, the
selector returns exactly the deduplicated level-1 entries. -/
theorem C4_part_dominance (byLevel : List (Nat × List OutEntry))
    (hpart : max 2 ((topLevelOf byLevel).length / 2) ≤ partLikeCount (topLevelOf byLevel))
    (hone : levelOneOf byLevel ≠ []) :
    get_pdf_outline_entries byLevel =
      (levelOneOf byLevel).map (fun e => PdfOutlineEntry.mk e.title e.page) := by
  have h2 : 2 ≤ partLikeCount (topLevelOf byLevel) :=
    le_trans (le_max_left _ _) hpart
  have htop : topLevelOf byLevel ≠ [] := by
    intro h0
    rw [h0] at h2
    simp [partLikeCount] at h2
  have hbl : byLevel ≠ [] := by
    intro h0
    apply htop
    rw [h0]
    rfl
  unfold get_pdf_outline_entries
  rw [if_neg hbl, if_pos (And.intro htop hpart)]
  split
  · rename_i l1 hl
    have hlev : levelOneOf byLevel = l1 := by
      unfold levelOneOf
      rw [hl]
      rfl
    rw [hlev] at hone ⊢
    rw [if_pos hone]
  · rename_i hl
    exfalso
    apply hone
    unfold levelOneOf
    rw [hl]
    rfl

/-- Witness for C4: five part-titled top entries against twelve chapter
entries select level 1. -/
theorem C4_part_dominance_witness :
    get_pdf_outline_entries
        [(0, [OutEntry.mk "Part 1" 0 0, OutEntry.mk "Part 2" 10 0, OutEntry.mk "Part 3" 20 0,
              OutEntry.mk "Part 4" 30 0, OutEntry.mk "Part 5" 40 0]),
         (1, [OutEntry.mk "Chapter 1" 1 1, OutEntry.mk "Chapter 2" 4 1,
              OutEntry.mk "Chapter 3" 7 1, OutEntry.mk "Chapter 4" 11 1,
              OutEntry.mk "Chapter 5" 14 1, OutEntry.mk "Chapter 6" 17 1,
              OutEntry.mk "Chapter 7" 21 1, OutEntry.mk "Chapter 8" 24 1,
              OutEntry.mk "Chapter 9" 27 1, OutEntry.mk "Chapter 10" 31 1,
              OutEntry.mk "Chapter 11" 34 1, OutEntry.mk "Chapter 12" 37 1])] =
      (levelOneOf
        [(0, [OutEntry.mk "Part 1" 0 0, OutEntry.mk "Part 2" 10 0, OutEntry.mk "Part 3" 20 0,
              OutEntry.mk "Part 4" 30 0, OutEntry.mk "Part 5" 40 0]),
         (1, [OutEntry.mk "Chapter 1" 1 1, OutEntry.mk "Chapter 2" 4 1,
              OutEntry.mk "Chapter 3" 7 1, OutEntry.mk "Chapter 4" 11 1,
              OutEntry.mk "Chapter 5" 14 1, OutEntry.mk "Chapter 6" 17 1,
              OutEntry.mk "Chapter 7" 21 1, OutEntry.mk "Chapter 8" 24 1,
              OutEntry.mk "Chapter 9" 27 1, OutEntry.mk "Chapter 10" 31 1,
              OutEntry.mk "Chapter 11" 34 1, OutEntry.mk "Chapter 12" 37 1])]).map
        (fun e => PdfOutlineEntry.mk e.title e.page) :=
  C4_part_dominance _ (by decide) (by decide)

/-- `takeWhile`/`dropWhile` on a satisfying run followed by a failing head. -/
theorem takeWhile_ws_append {p : Char → Bool} : ∀ (ws : List Char), (∀ c ∈ ws, p c = true) →
    ∀ (b : Char) (t : List Char), p b = false →
    (ws ++ b :: t).takeWhile p = ws ∧ (ws ++ b :: t).dropWhile p = b :: t := by
  intro ws
  induction ws with
  | nil =>
    intro _ b t hb
    simp [List.takeWhile, List.dropWhile, hb]
  | cons x xs ih =>
    intro h b t hb
    have hx := h x (List.mem_cons_self _ _)
    have hrec := ih (fun c hc => h c (List.mem_cons_of_mem _ hc)) b t hb
    simp only [List.cons_append, List.takeWhile_cons, List.dropWhile_cons, hx, if_true]
    simp [hrec.1, hrec.2]

/-- An ASCII letter is not regex whitespace. -/
theorem alpha_not_space {c : Char} (h : c.isAlpha = true) : pyIsSpace c = false := by
  unfold pyIsSpace
  have h1 : c ≠ ' ' := fun e => absurd h (by rw [e]; decide)
  have h2 : c ≠ '\t' := fun e => absurd h (by rw [e]; decide)
  have h3 : c ≠ '\n' := fun e => absurd h (by rw [e]; decide)
  have h4 : c ≠ '\r' := fun e => absurd h (by rw [e]; decide)
  have h5 : c ≠ '\x0b' := fun e => absurd h (by rw [e]; decide)
  have h6 : c ≠ '\x0c' := fun e => absurd h (by rw [e]; decide)
  simp [h1, h2, h3, h4, h5, h6]

/-- A successful `dehyphMatchTail` consumes at least one character. -/
theorem dehyphMatchTail_length {r : List Char} {b : Char} {t : List Char}
    (h : dehyphMatchTail r = some (b, t)) : t.length < r.length := by
  unfold dehyphMatchTail at h
  split at h
  · rename_i b2 t2 heq
    split at h
    · cases h
      have := (List.dropWhile_sublist pyIsSpace (l := r)).length_le
      rw [heq] at this
      simp at this
      omega
    · cases h
  · cases h

/-- `dehyphAux` ignores the fuel as long as it covers the input length. -/
theorem dehyphAux_fuel : ∀ (f1 f2 : Nat) (l : List Char),
    l.length ≤ f1 → l.length ≤ f2 → dehyphAux f1 l = dehyphAux f2 l := by
  intro f1
  induction f1 with
  | zero =>
    intro f2 l h1 _
    have hl : l = [] := List.eq_nil_of_length_eq_zero (Nat.le_zero.mp h1)
    subst hl
    simp [dehyphAux]
  | succ f ih =>
    intro f2 l h1 h2
    cases l with
    | nil => simp [dehyphAux]
    | cons c l2 =>
      cases l2 with
      | nil => simp [dehyphAux]
      | cons d r =>
        simp only [List.length_cons] at h1 h2
        cases f2 with
        | zero => omega
        | succ f2 =>
          simp only [dehyphAux]
          by_cases hcd : (c.isAlpha && isHyphenLike d) = true
          · rw [if_pos hcd, if_pos hcd]
            cases hmt : dehyphMatchTail r with
            | none =>
              simp only [hmt]
              rw [ih f2 (d :: r) (by simp; omega) (by simp; omega)]
            | some p =>
              cases p with
              | mk b t =>
                have hlt := dehyphMatchTail_length hmt
                simp only [hmt]
                rw [ih f2 t (by omega) (by omega)]
          · rw [if_neg hcd, if_neg hcd]
            rw [ih f2 (d :: r) (by simp; omega) (by simp; omega)]

/-- The hyphenation tail match succeeds on a whitespace run containing a
newline followed by a letter. -/
theorem dehyphMatchTail_eq (ws1 ws2 : List Char) (b : Char) (rest : List Char)
    (hw1 : ∀ c ∈ ws1, pyIsSpace c = true) (hw2 : ∀ c ∈ ws2, pyIsSpace c = true)
    (hb : b.isAlpha = true) :
    dehyphMatchTail (ws1 ++ '\n' :: (ws2 ++ b :: rest)) = some (b, rest) := by
  have hball : ∀ c ∈ (ws1 ++ '\n' :: ws2), pyIsSpace c = true := by
    intro c hc
    rcases List.mem_append.mp hc with hc | hc
    · exact hw1 c hc
    · rcases List.mem_cons.mp hc with hc | hc
      · rw [hc]; decide
      · exact hw2 c hc
  have hnb : pyIsSpace b = false := alpha_not_space hb
  have hsplit := takeWhile_ws_append (ws1 ++ '\n' :: ws2) hball b rest hnb
  have hassoc : ws1 ++ '\n' :: (ws2 ++ b :: rest) = (ws1 ++ '\n' :: ws2) ++ b :: rest := by
    simp
  unfold dehyphMatchTail
  rw [hassoc, hsplit.2, hsplit.1]
  show (if '\n' ∈ (ws1 ++ '\n' :: ws2) ∧ b.isAlpha = true then some (b, rest) else none) =
    some (b, rest)
  rw [if_pos (And.intro (by simp) hb)]

/-- The local rewriting step of the hyphenation merge: a letter, a hyphen-like
character, whitespace containing a newline, and a letter collapse to the two
letters, and scanning resumes after the second letter. -/
theorem dehyph_merge (a hy b : Char) (ws1 ws2 rest : List Char)
    (ha : a.isAlpha = true) (hh : isHyphenLike hy = true)
    (hw1 : ∀ c ∈ ws1, pyIsSpace c = true) (hw2 : ∀ c ∈ ws2, pyIsSpace c = true)
    (hb : b.isAlpha = true) :
    dehyph (a :: hy :: (ws1 ++ '\n' :: (ws2 ++ b :: rest))) = a :: b :: dehyph rest := by
  unfold dehyph
  have hlen : (a :: hy :: (ws1 ++ '\n' :: (ws2 ++ b :: rest))).length =
      (ws1 ++ '\n' :: (ws2 ++ b :: rest)).length + 1 + 1 := rfl
  rw [hlen]
  simp only [dehyphAux]
  rw [if_pos (by rw [ha, hh]; rfl)]
  rw [dehyphMatchTail_eq ws1 ws2 b rest hw1 hw2 hb]
  have hfuel : dehyphAux ((ws1 ++ '\n' :: (ws2 ++ b :: rest)).length + 1) rest =
      dehyphAux rest.length rest := by
    apply dehyphAux_fuel
    · simp
      omega
    · exact le_refl _
  show a :: b :: dehyphAux ((ws1 ++ '\n' :: (ws2 ++ b :: rest)).length + 1) rest =
    a :: b :: dehyph rest
  rw [hfuel]
  rfl

/-- C6: the dehyphenation substitution joins every letter, hyphen-like
character, whitespace-with-newline, letter occurrence with no separator, and
the full normalizer maps the spec example to its merged form. -/
theorem C6_hyphenation_merge (a hy b : Char) (ws1 ws2 rest : List Char)
    (ha : a.isAlpha = true) (hh : isHyphenLike hy = true)
    (hw1 : ∀ c ∈ ws1, pyIsSpace c = true) (hw2 : ∀ c ∈ ws2, pyIsSpace c = true)
    (hb : b.isAlpha = true) :
    dehyph (a :: hy :: (ws1 ++ '\n' :: (ws2 ++ b :: rest))) = a :: b :: dehyph rest ∧
    normalize_pdf_text "The cold cli-\nmate was harsh." = "The cold climate was harsh." := by
  constructor
  · exact dehyph_merge a hy b ws1 ws2 rest ha hh hw1 hw2 hb
  · rfl

/-- Witness for C6 at a concrete hyphenated fragment. -/
theorem C6_hyphenation_merge_witness :
    dehyph ('i' :: '-' :: ([] ++ '\n' :: ([] ++ 'm' :: "ate".data))) =
      'i' :: 'm' :: dehyph "ate".data :=
  (C6_hyphenation_merge 'i' '-' 'm' [] [] "ate".data (by decide) (by decide)
    (fun c hc => absurd hc (List.not_mem_nil c))
    (fun c hc => absurd hc (List.not_mem_nil c)) (by decide)).1
